import Mathlib

/-!
# Verification of `activate.py` — license activation over a JSON ledger

A shallow embedding of the license-activation script: SHA-256-based key
derivation and token issuance, the find-or-create / already-active / limit /
append decision logic over the ledger, and the file-level load/persist steps.
Machine words are `Nat` reduced modulo `2 ^ 32` where the source's hash
arithmetic wraps; fallible steps (JSON parse, list indexing) are explicit.
-/

namespace LicenseDb

/-! ## SHA-256 (executable, `Nat`-based)

The source calls `hashlib.sha256(...).hexdigest()` on UTF-8 encoded strings
(lines 37, 134, 180).  We embed the full FIPS 180-4 algorithm over `Nat`,
with every 32-bit operation reduced modulo `2 ^ 32`. -/

/-- The 32-bit modulus. -/
def w32 : Nat := 4294967296

/-- Right rotation of a 32-bit word by `k` bits. -/
def rotr (k n : Nat) : Nat := ((n >>> k) ||| (n <<< (32 - k))) % w32

/-- Logical right shift of a 32-bit word by `k` bits. -/
def shr (k n : Nat) : Nat := n >>> k

/-- Bitwise complement within 32 bits. -/
def not32 (n : Nat) : Nat := n ^^^ (w32 - 1)

/-- SHA-256 `Ch` function. -/
def ch256 (x y z : Nat) : Nat := (x &&& y) ^^^ (not32 x &&& z)

/-- SHA-256 `Maj` function. -/
def maj256 (x y z : Nat) : Nat := (x &&& y) ^^^ (x &&& z) ^^^ (y &&& z)

/-- SHA-256 big sigma 0. -/
def bsig0 (x : Nat) : Nat := rotr 2 x ^^^ rotr 13 x ^^^ rotr 22 x

/-- SHA-256 big sigma 1. -/
def bsig1 (x : Nat) : Nat := rotr 6 x ^^^ rotr 11 x ^^^ rotr 25 x

/-- SHA-256 small sigma 0. -/
def ssig0 (x : Nat) : Nat := rotr 7 x ^^^ rotr 18 x ^^^ shr 3 x

/-- SHA-256 small sigma 1. -/
def ssig1 (x : Nat) : Nat := rotr 17 x ^^^ rotr 19 x ^^^ shr 10 x

/-- The 64 SHA-256 round constants of FIPS 180-4 (the fractional parts of
the cube roots of the first 64 primes), written in decimal. -/
def K256 : List Nat :=
  [1116352408, 1899447441, 3049323471, 3921009573, 961987163, 1508970993,
   2453635748, 2870763221, 3624381080, 310598401, 607225278, 1426881987,
   1925078388, 2162078206, 2614888103, 3248222580, 3835390401, 4022224774,
   264347078, 604807628, 770255983, 1249150122, 1555081692, 1996064986,
   2554220882, 2821834349, 2952996808, 3210313671, 3336571891, 3584528711,
   113926993, 338241895, 666307205, 773529912, 1294757372, 1396182291,
   1695183700, 1986661051, 2177026350, 2456956037, 2730485921, 2820302411,
   3259730800, 3345764771, 3516065817, 3600352804, 4094571909, 275423344,
   430227734, 506948616, 659060556, 883997877, 958139571, 1322822218,
   1537002063, 1747873779, 1955562222, 2024104815, 2227730452, 2361852424,
   2428436474, 2756734187, 3204031479, 3329325298]

/-- The SHA-256 initial hash value of FIPS 180-4, written in decimal. -/
def H256 : List Nat :=
  [1779033703, 3144134277, 1013904242, 2773480762,
   1359893119, 2600822924, 528734635, 1541459225]

/-- The 8 big-endian bytes of the 64-bit message bit length. -/
def lenBytes (bitLen : Nat) : List Nat :=
  [(bitLen >>> 56) % 256, (bitLen >>> 48) % 256, (bitLen >>> 40) % 256,
   (bitLen >>> 32) % 256, (bitLen >>> 24) % 256, (bitLen >>> 16) % 256,
   (bitLen >>> 8) % 256, bitLen % 256]

/-- FIPS 180-4 padding: append `0x80`, zero bytes up to 56 mod 64, then the
bit length as 8 big-endian bytes. -/
def pad256 (msg : List Nat) : List Nat :=
  let len := msg.length
  let zeros := (64 - (len + 9) % 64) % 64
  msg ++ [0x80] ++ List.replicate zeros 0 ++ lenBytes (8 * len)

/-- Group bytes into 32-bit big-endian words. -/
def toWords : List Nat → List Nat
  | a :: b :: c :: d :: rest =>
      ((a <<< 24) ||| (b <<< 16) ||| (c <<< 8) ||| d) :: toWords rest
  | _ => []

/-- Extend the 16 block words to 64 schedule words.  The accumulator holds the
words produced so far in reverse order, so `acc.getD 1 0` is `w (t - 2)`,
`acc.getD 6 0` is `w (t - 7)`, and so on. -/
def extendSchedule : Nat → List Nat → List Nat
  | 0, acc => acc.reverse
  | n + 1, acc =>
      let wt := (ssig1 (acc.getD 1 0) + acc.getD 6 0 +
                 ssig0 (acc.getD 14 0) + acc.getD 15 0) % w32
      extendSchedule n (wt :: acc)

/-- One SHA-256 compression round on the state `[a, b, c, d, e, f, g, h]`,
given the round constant and schedule word. -/
def round256 (st : List Nat) (kw : Nat × Nat) : List Nat :=
  match st with
  | [a, b, c, d, e, f, g, h] =>
      let t1 := (h + bsig1 e + ch256 e f g + kw.1 + kw.2) % w32
      let t2 := (bsig0 a + maj256 a b c) % w32
      [(t1 + t2) % w32, a, b, c, (d + t1) % w32, e, f, g]
  | other => other

/-- Compress one 16-word block into the chaining state. -/
def compress256 (h : List Nat) (block : List Nat) : List Nat :=
  let w := extendSchedule 48 block.reverse
  let st := (K256.zip w).foldl round256 h
  (h.zip st).map (fun p => (p.1 + p.2) % w32)

/-- Fold the compression function over the word stream, 16 words per block;
the first argument is the number of blocks. -/
def processBlocks : Nat → List Nat → List Nat → List Nat
  | 0, h, _ => h
  | n + 1, h, ws => processBlocks n (compress256 h (ws.take 16)) (ws.drop 16)

/-- UTF-8 encoding of one code point, as Python's `str.encode("utf-8")`
produces it. -/
def utf8EncodeCharNat (n : Nat) : List Nat :=
  if n < 0x80 then [n]
  else if n < 0x800 then
    [0xC0 ||| (n >>> 6), 0x80 ||| (n &&& 0x3F)]
  else if n < 0x10000 then
    [0xE0 ||| (n >>> 12), 0x80 ||| ((n >>> 6) &&& 0x3F), 0x80 ||| (n &&& 0x3F)]
  else
    [0xF0 ||| (n >>> 18), 0x80 ||| ((n >>> 12) &&& 0x3F),
     0x80 ||| ((n >>> 6) &&& 0x3F), 0x80 ||| (n &&& 0x3F)]

/-- The UTF-8 bytes of a string. -/
def utf8Bytes (s : String) : List Nat :=
  s.data.flatMap (fun c => utf8EncodeCharNat c.toNat)

/-- Lowercase hex digit for a value below 16. -/
def hexDigit (n : Nat) : Char :=
  if n < 10 then Char.ofNat (48 + n) else Char.ofNat (87 + n)

/-- The 8 lowercase hex digits of a 32-bit word. -/
def wordHex (n : Nat) : List Char :=
  [hexDigit ((n >>> 28) % 16), hexDigit ((n >>> 24) % 16),
   hexDigit ((n >>> 20) % 16), hexDigit ((n >>> 16) % 16),
   hexDigit ((n >>> 12) % 16), hexDigit ((n >>> 8) % 16),
   hexDigit ((n >>> 4) % 16), hexDigit (n % 16)]

/-- SHA-256 of a byte list, as the 8 final 32-bit words. -/
def sha256Words (msg : List Nat) : List Nat :=
  let ws := toWords (pad256 msg)
  processBlocks (ws.length / 16) H256 ws

/-- The lowercase hex digest of SHA-256 on a string's UTF-8 bytes — the
embedding of Python's `hashlib.sha256(s.encode("utf-8")).hexdigest()`. -/
def sha256hex (s : String) : String :=
  String.mk ((sha256Words (utf8Bytes s)).flatMap wordHex)

/-! ## Python string primitives

The script normalizes its inputs with `str.strip`, `str.upper`, `str.lower`,
`str.replace("-", "")` and slices the hex digest with `[:16]` (lines 21-25,
38).  We embed these as character-list operations. -/

/-- Python `str.strip()`: drop whitespace from both ends. -/
def pyStrip (s : String) : String :=
  String.mk
    (((s.data.dropWhile Char.isWhitespace).reverse.dropWhile
        Char.isWhitespace).reverse)

/-- Python `str.upper()` on the ASCII range the script manipulates. -/
def pyUpper (s : String) : String := String.mk (s.data.map Char.toUpper)

/-- Python `str.lower()` on the ASCII range the script manipulates. -/
def pyLower (s : String) : String := String.mk (s.data.map Char.toLower)

/-- Python `str.replace("-", "")`: remove every hyphen. -/
def stripDashes (s : String) : String :=
  String.mk (s.data.filter (fun c => c ≠ '-'))

/-- Python slicing `s[:n]`: the first `n` characters. -/
def takeChars (s : String) (n : Nat) : String := String.mk (s.data.take n)

/-! ## Key derivation and data model -/

/-- Embedding of `generate_master_key` (lines 35-39): the uppercase first 16
hex characters of `SHA-256("{email}|lifetime|{encryption_key}")`. -/
def generate_master_key (encryption_key email_input : String) : String :=
  let data := email_input ++ "|lifetime|" ++ encryption_key
  let hash_hex := sha256hex data
  pyUpper (takeChars hash_hex 16)

/-- One recorded activation.  `machineName` is optional because the script
reads it defensively with `.get("machineName", ...)` (line 144); the script
itself always writes it (line 159). -/
structure Activation where
  machineId : String
  machineName : Option String
  activatedAt : String
  deriving Repr, DecidableEq

/-- One license entry, keyed by (normalized) email. -/
structure LicenseEntry where
  email : String
  masterKey : String
  createdAt : String
  isActive : Bool
  activations : List Activation
  deriving Repr, DecidableEq

/-- The persisted license database (`licenses.json`). -/
structure DB where
  version : String
  lastUpdated : String
  licenses : List LicenseEntry
  deriving Repr, DecidableEq

/-- The durable state of `licenses.json` as an external reader sees it:
missing, present with parseable content, or present but not parseable as
JSON (which includes a truncated or empty file). -/
inductive FileState where
  | absent
  | corrupt
  | present (db : DB)
  deriving Repr, DecidableEq

/-- The fresh database synthesized when no ledger file exists (lines 91-96). -/
def freshDb (now : String) : DB :=
  { version := "1.0", lastUpdated := now, licenses := [] }

/-- PASO 2 (lines 85-96): load `licenses.json`.  A missing file yields the
fresh empty database; an unparseable file makes `json.load` raise, which the
script does not catch. -/
def loadDb : FileState → String → Except Unit DB
  | .present db, _ => .ok db
  | .corrupt, _ => .error ()
  | .absent, now => .ok (freshDb now)

/-- The inputs the script reads from its environment (lines 21-27), plus the
current time standing in for `datetime.now(timezone.utc).isoformat()`. -/
structure Env where
  inputEmail : String
  inputMasterKey : String
  inputMachineId : String
  inputMachineName : String
  inputRequestId : String
  encryptionKey : String
  maxActivations : Int
  now : String
  deriving Repr, DecidableEq

/-- Line 21: `email = os.environ.get(...).strip().lower()`. -/
def Env.email (env : Env) : String := pyLower (pyStrip env.inputEmail)

/-- Line 22: `master_key = os.environ.get(...).strip().upper().replace("-", "")`. -/
def Env.masterKey (env : Env) : String :=
  stripDashes (pyUpper (pyStrip env.inputMasterKey))

/-- Line 23: `machine_id = os.environ.get(...).strip()`. -/
def Env.machineId (env : Env) : String := pyStrip env.inputMachineId

/-- Line 24: `machine_name = os.environ.get(...).strip()`. -/
def Env.machineName (env : Env) : String := pyStrip env.inputMachineName

/-- Line 25: `request_id = os.environ.get(...).strip()`. -/
def Env.requestId (env : Env) : String := pyStrip env.inputRequestId

/-! ## The activation run -/

/-- How one run of the script ends.  The first six constructors correspond to
a result file being written; the two `crash` constructors model uncaught
Python exceptions (`json.JSONDecodeError` from line 89, `IndexError` from
line 144), which abort the process with no result file. -/
inductive Decision where
  | missingFields
  | serverMisconfigured
  | invalidCredential
  | alreadyActive (token : String)
  | limitReached (occupied : String) (maxA : Int)
  | activated (token : String)
  | crashCorruptLedger
  | crashIndexError
  deriving Repr, DecidableEq

/-- The limit-reached message (lines 145-150), with the occupying machine
name and the configured maximum interpolated. -/
def limitMessage (occupied : String) (maxA : Int) : String :=
  "This license is already activated on \"" ++ occupied ++
    "\". Maximum allowed: " ++ toString maxA ++
    " computer(s). Contact support to transfer your license."

/-- The `(success, message, activationToken)` triple the script writes to
`results/{requestId}.json` via `write_result`, or `none` when the run raised
and wrote nothing. -/
def writtenResult : Decision → Option (Bool × String × String)
  | .missingFields => some (false, "Missing required fields.", "")
  | .serverMisconfigured => some (false, "Server misconfigured. Contact support.", "")
  | .invalidCredential =>
      some (false, "Invalid license key or email. Please verify and try again.", "")
  | .alreadyActive t => some (true, "License is active on this computer.", t)
  | .limitReached occ m => some (false, limitMessage occ m, "")
  | .activated t => some (true, "License activated successfully!", t)
  | .crashCorruptLedger => none
  | .crashIndexError => none

/-- PASO 3's search loop (lines 104-108): the first entry whose `email`
matches. -/
def findEntry? : List LicenseEntry → String → Option LicenseEntry
  | [], _ => none
  | e :: rest, em => if e.email = em then some e else findEntry? rest em

/-- Replace the first entry whose `email` matches.  Python mutates the found
entry in place through the `license_entry` alias (line 162); functionally
that is a replacement of the first match. -/
def updateFirst : List LicenseEntry → String → LicenseEntry → List LicenseEntry
  | [], _, _ => []
  | e :: rest, em, x =>
      if e.email = em then x :: rest else e :: updateFirst rest em x

/-- The license entry created on first activation for an email
(lines 110-120). -/
def freshEntry (env : Env) : LicenseEntry :=
  { email := env.email, masterKey := env.masterKey, createdAt := env.now,
    isActive := true, activations := [] }

/-- PASO 3 through PASO 8 of the script (lines 104-181), once the database
has been loaded: find or create the entry for the email, the already-active
check, the limit check with its `activations[0]` read, and the append-and-save
path.  The second component is the database written at PASO 7 (`none` when
the script exits before line 171). -/
def pasoActivate (env : Env) (db : DB) : Decision × Option DB :=
  let found := findEntry? db.licenses env.email
  let baseLicenses :=
    match found with
    | some _ => db.licenses
    | none => db.licenses ++ [freshEntry env]
  let entry :=
    match found with
    | some e => e
    | none => freshEntry env
  if ∃ a ∈ entry.activations, a.machineId = env.machineId then
    (.alreadyActive
      (sha256hex (env.email ++ "|" ++ env.machineId ++ "|activated|" ++
        env.encryptionKey)), none)
  else if (entry.activations.length : Int) ≥ env.maxActivations then
    match entry.activations with
    | [] => (.crashIndexError, none)
    | a :: _ =>
        (.limitReached (a.machineName.getD "another computer")
          env.maxActivations, none)
  else
    let newAct : Activation :=
      { machineId := env.machineId,
        machineName :=
          some (if env.machineName = "" then "Unknown" else env.machineName),
        activatedAt := env.now }
    let entry2 := { entry with activations := entry.activations ++ [newAct] }
    let db2 :=
      { db with licenses := updateFirst baseLicenses env.email entry2,
                lastUpdated := env.now }
    (.activated
      (sha256hex (env.email ++ "|" ++ env.machineId ++ "|activated|" ++
        env.encryptionKey)), some db2)

/-- One run of the script against a ledger state: the decision reached, and
the database written at PASO 7 (`none` when the run exits before line 171).
This follows `activate.py` top to bottom: validations (lines 62-68), master
key check (lines 74-77), load (lines 85-96), then `pasoActivate`. -/
def runW (env : Env) (fs : FileState) : Decision × Option DB :=
  if env.email = "" ∨ env.masterKey = "" ∨ env.machineId = "" ∨
      env.requestId = "" then
    (.missingFields, none)
  else if env.encryptionKey = "" then
    (.serverMisconfigured, none)
  else if env.masterKey ≠ generate_master_key env.encryptionKey env.email then
    (.invalidCredential, none)
  else
    match loadDb fs env.now with
    | .error _ => (.crashCorruptLedger, none)
    | .ok db => pasoActivate env db

/-- The durable effect of a run's write step on the ledger file. -/
def applyW (fs : FileState) : Option DB → FileState
  | none => fs
  | some db => .present db

/-- One run of the script: decision plus the final state of the ledger
file. -/
def run (env : Env) (fs : FileState) : Decision × FileState :=
  let r := runW env fs
  (r.1, applyW fs r.2)

/-- Whether a decision is the `Activated` success. -/
def Decision.isActivated : Decision → Bool
  | .activated _ => true
  | _ => false

/-! ## Two concurrent runs

The script acquires no lock of any kind on `licenses.json`: it reads the file
once at PASO 2 (lines 87-89) and writes it at most once at PASO 7 (lines
171-172), with nothing preventing another invocation from reading or writing
in between.  For two concurrent runs the observable outcome is determined by
which ledger state each run's single read sees and by the order of the two
writes, giving four schedules: the two serial orders, and the two overlapped
orders in which both runs read the initial state before either writes. -/

/-- A schedule of two concurrent runs, up to observational equivalence. -/
inductive Schedule where
  | serialAB
  | serialBA
  | overlapAW
  | overlapBW
  deriving Repr, DecidableEq

/-- Execute two runs under a schedule: both decisions, and the final durable
ledger state.  In the overlapped schedules both runs load the initial state
`s0`; `overlapAW` commits A's write first (so B's write, if any, lands last),
`overlapBW` the reverse. -/
def exec2 (envA envB : Env) (s0 : FileState) :
    Schedule → (Decision × Decision) × FileState
  | .serialAB =>
      let ra := run envA s0
      let rb := run envB ra.2
      ((ra.1, rb.1), rb.2)
  | .serialBA =>
      let rb := run envB s0
      let ra := run envA rb.2
      ((ra.1, rb.1), ra.2)
  | .overlapAW =>
      let ra := runW envA s0
      let rb := runW envB s0
      ((ra.1, rb.1), applyW (applyW s0 ra.2) rb.2)
  | .overlapBW =>
      let ra := runW envA s0
      let rb := runW envB s0
      ((ra.1, rb.1), applyW (applyW s0 rb.2) ra.2)

/-! ## The persist step's observable states

PASO 7 persists with `open(LICENSES_FILE, "w")` followed by `json.dump`
(lines 171-172).  Python's mode `"w"` truncates the existing file in place
the moment it is opened, and the new JSON text is then written into the same
file.  There is no temporary file and no rename, so between the truncation
and the completed write an external reader sees a truncated or partially
written file — content that does not parse as the JSON database, which
`FileState.corrupt` models. -/

/-- The durable states an external reader can observe while PASO 7 rewrites
the ledger in place: first the truncated (unparseable) file, then the
complete new content. -/
def persistDurableStates (db : DB) : List FileState :=
  [.corrupt, .present db]

/-- The durable ledger states observable over one whole run, in order: the
initial state and, when the run reaches PASO 7, the states of the in-place
rewrite. -/
def runDurableTrace (env : Env) (fs : FileState) : List FileState :=
  match (runW env fs).2 with
  | none => [fs]
  | some db => fs :: persistDurableStates db

/-! ## Spec-side definitions and invariant predicates -/

/-- The KeyDeriver contract stated from the spec's words (§4.1): the
uppercase of the first 16 hex characters of
`SHA-256("{email}|lifetime|{sharedSecret}")`, with no separators — written
independently of the source for comparison with `generate_master_key`. -/
def derive (email sharedSecret : String) : String :=
  pyUpper (takeChars (sha256hex (email ++ "|lifetime|" ++ sharedSecret)) 16)

/-- The string hashed for a token (lines 134, 180):
`"{email}|{machineId}|activated|{sharedSecret}"`. -/
def tokenData (email machineId sharedSecret : String) : String :=
  email ++ "|" ++ machineId ++ "|activated|" ++ sharedSecret

/-- The token formula of the TokenIssuer contract (§4.4): the full hex
digest of `SHA-256("{email}|{machineId}|activated|{sharedSecret}")`. -/
def issueToken (email machineId sharedSecret : String) : String :=
  sha256hex (tokenData email machineId sharedSecret)

/-- Invariant I3 for one database: every entry holds at most `k`
activations. -/
def dbBound (k : Int) (db : DB) : Prop :=
  ∀ e ∈ db.licenses, (e.activations.length : Int) ≤ k

/-- Invariant I3 for a durable ledger state. -/
def fsBound (k : Int) (fs : FileState) : Prop :=
  ∀ db, fs = .present db → dbBound k db

/-- The script's required-fields validation (line 62) passes. -/
abbrev fieldsOk (env : Env) : Prop :=
  ¬(env.email = "" ∨ env.masterKey = "" ∨ env.machineId = "" ∨
    env.requestId = "")

/-- The presented master key matches the derived one (line 75). -/
abbrev keyOk (env : Env) : Prop :=
  env.masterKey = generate_master_key env.encryptionKey env.email

/-! ## Concrete example inputs

A valid request for `alice@x.com` (master key derived with shared secret
`"sec"`) from machine `m1`, the same license from a second machine `m2`, and
concrete ledgers the witnesses run against. -/

/-- Alice's activation request from machine `m1`, `maxActivations = 1`. -/
def envM1 : Env :=
  { inputEmail := "alice@x.com",
    inputMasterKey := generate_master_key "sec" "alice@x.com",
    inputMachineId := "m1", inputMachineName := "PC-A",
    inputRequestId := "r1", encryptionKey := "sec",
    maxActivations := 1, now := "t1" }

/-- Alice's activation request from a second machine `m2`. -/
def envM2 : Env :=
  { envM1 with inputMachineId := "m2", inputMachineName := "PC-B",
               inputRequestId := "r2", now := "t2" }

/-- A request with every field empty (fails the line-62 validation). -/
def envEmpty : Env :=
  { inputEmail := "", inputMasterKey := "", inputMachineId := "",
    inputMachineName := "", inputRequestId := "", encryptionKey := "",
    maxActivations := 1, now := "t0" }

/-- The first activation recorded for Alice, on machine `m1`. -/
def actM1 : Activation :=
  { machineId := "m1", machineName := some "PC-1", activatedAt := "t0" }

/-- A ledger holding Alice's license with the single activation `actM1`. -/
def dbOneAct : DB :=
  { version := "1.0", lastUpdated := "t0",
    licenses := [{ email := "alice@x.com", masterKey := "ANY",
                   createdAt := "t0", isActive := true,
                   activations := [actM1] }] }

/-- Bob's ledger: one unrelated license entry, used as the pre-existing
complete file the in-place rewrite destroys mid-persist. -/
def dbBob : DB :=
  { version := "1.0", lastUpdated := "t0",
    licenses := [{ email := "bob@x.com", masterKey := "B",
                   createdAt := "t0", isActive := true,
                   activations := [{ machineId := "mb",
                                     machineName := some "PC-B",
                                     activatedAt := "t0" }] }] }

/-- The database Alice's first run writes from the empty ledger. -/
def dbAliceNew : DB :=
  { version := "1.0", lastUpdated := "t1",
    licenses := [{ email := "alice@x.com",
                   masterKey := generate_master_key "sec" "alice@x.com",
                   createdAt := "t1", isActive := true,
                   activations := [{ machineId := "m1",
                                     machineName := some "PC-A",
                                     activatedAt := "t1" }] }] }

/-! ## Validation of the SHA-256 embedding -/

/-- FIPS 180-4 test vector: the digest of `"abc"`. -/
example :
    sha256hex "abc" =
      "ba7816bf8f01cfea414140de5dae2223b00361a396177a9cb410ff61f20015ad" := by
  decide

/-- FIPS 180-4 test vector: the digest of the empty string (one padded block,
no message bytes). -/
example :
    sha256hex "" =
      "e3b0c44298fc1c149afbf4c8996fb92427ae41e4649b934ca495991b7852b855" := by
  decide

/-! ## Helper lemmas on the entry search and replacement -/

theorem findEntry?_eq_some {l : List LicenseEntry} {em : String}
    {e : LicenseEntry} (h : findEntry? l em = some e) :
    e ∈ l ∧ e.email = em := by
  induction l with
  | nil => simp [findEntry?] at h
  | cons x rest ih =>
    rw [findEntry?] at h
    by_cases hx : x.email = em
    · rw [if_pos hx] at h
      obtain rfl : x = e := by injection h
      exact ⟨List.mem_cons_self x rest, hx⟩
    · rw [if_neg hx] at h
      obtain ⟨h1, h2⟩ := ih h
      exact ⟨List.mem_cons_of_mem _ h1, h2⟩

theorem findEntry?_append_right {l : List LicenseEntry} {em : String}
    {x : LicenseEntry} (h : findEntry? l em = none) (hx : x.email = em) :
    findEntry? (l ++ [x]) em = some x := by
  induction l with
  | nil => simp [findEntry?, hx]
  | cons y rest ih =>
    rw [findEntry?] at h
    rw [List.cons_append, findEntry?]
    by_cases hy : y.email = em
    · rw [if_pos hy] at h; exact absurd h (by simp)
    · rw [if_neg hy] at h ⊢
      exact ih h

theorem mem_updateFirst {l : List LicenseEntry} {em : String}
    {x e : LicenseEntry} (h : e ∈ updateFirst l em x) : e ∈ l ∨ e = x := by
  induction l with
  | nil => simp [updateFirst] at h
  | cons y rest ih =>
    rw [updateFirst] at h
    by_cases hy : y.email = em
    · rw [if_pos hy] at h
      rcases List.mem_cons.mp h with rfl | h2
      · right; rfl
      · left; exact List.mem_cons_of_mem _ h2
    · rw [if_neg hy] at h
      rcases List.mem_cons.mp h with rfl | h2
      · left; exact List.mem_cons_self _ _
      · rcases ih h2 with h3 | h3
        · left; exact List.mem_cons_of_mem _ h3
        · right; exact h3

theorem findEntry?_updateFirst {l : List LicenseEntry} {em : String}
    {x f : LicenseEntry} (hf : findEntry? l em = some f) (hx : x.email = em) :
    findEntry? (updateFirst l em x) em = some x := by
  induction l with
  | nil => simp [findEntry?] at hf
  | cons y rest ih =>
    rw [findEntry?] at hf
    rw [updateFirst]
    by_cases hy : y.email = em
    · rw [if_pos hy, findEntry?, if_pos hx]
    · rw [if_neg hy, findEntry?, if_neg hy]
      rw [if_neg hy] at hf
      exact ih hf

/-! ## Preservation of the activation bound by one run -/

/-- If the append path fires, the entry it appended to was strictly below the
limit, so every entry of the written database is again within the bound. -/
theorem pasoActivate_write_bound {env : Env} {db db' : DB}
    (hk : 1 ≤ env.maxActivations)
    (hdb : dbBound env.maxActivations db)
    (h : (pasoActivate env db).2 = some db') :
    dbBound env.maxActivations db' := by
  rcases hfind : findEntry? db.licenses env.email with _ | f
  · simp only [pasoActivate, hfind] at h
    split at h
    · simp at h
    split at h
    · split at h <;> simp at h
    rename_i hex hlim
    obtain rfl := Option.some.inj h
    intro e he
    rcases mem_updateFirst he with hmem | rfl
    · rcases List.mem_append.mp hmem with h1 | h1
      · exact hdb e h1
      · obtain rfl : e = freshEntry env := by simpa using h1
        simp only [freshEntry, List.length_nil]
        omega
    · simp only [freshEntry, List.length_append, List.length_cons,
        List.length_nil]
      omega
  · simp only [pasoActivate, hfind] at h
    split at h
    · simp at h
    split at h
    · split at h <;> simp at h
    rename_i hex hlim
    obtain rfl := Option.some.inj h
    intro e he
    rcases mem_updateFirst he with hmem | rfl
    · exact hdb e hmem
    · simp only [List.length_append, List.length_cons, List.length_nil]
      push_cast
      omega

theorem runW_write_bound {env : Env} {fs : FileState} {db' : DB}
    (hk : 1 ≤ env.maxActivations) (hfs : fsBound env.maxActivations fs)
    (h : (runW env fs).2 = some db') :
    dbBound env.maxActivations db' := by
  unfold runW at h
  split_ifs at h
  rcases fs with _ | _ | db
  · simp only [loadDb] at h
    exact pasoActivate_write_bound hk
      (by intro e he; simp [freshDb] at he) h
  · simp only [loadDb] at h
    simp at h
  · simp only [loadDb] at h
    exact pasoActivate_write_bound hk (hfs db rfl) h

theorem applyW_bound {k : Int} {fs : FileState} {w : Option DB}
    (hfs : fsBound k fs) (hw : ∀ db', w = some db' → dbBound k db') :
    fsBound k (applyW fs w) := by
  rcases w with _ | d
  · exact hfs
  · intro db' h
    simp only [applyW] at h
    obtain rfl := FileState.present.inj h
    exact hw d rfl

theorem run_fsBound {env : Env} {fs : FileState}
    (hk : 1 ≤ env.maxActivations) (hfs : fsBound env.maxActivations fs) :
    fsBound env.maxActivations (run env fs).2 := by
  simp only [run]
  exact applyW_bound hfs (fun db' h => runW_write_bound hk hfs h)

/-! ## The write happens only on the activated path -/

theorem pasoActivate_some_activated {env : Env} {db db' : DB}
    (h : (pasoActivate env db).2 = some db') :
    ∃ t, (pasoActivate env db).1 = .activated t := by
  rcases hfind : findEntry? db.licenses env.email with _ | f
  all_goals
    simp only [pasoActivate, hfind] at h ⊢
    split at h
    · simp at h
    split at h
    · split at h <;> simp at h
    rename_i hex hlim
    rw [if_neg hex, if_neg hlim]
    exact ⟨_, rfl⟩

theorem runW_some_activated {env : Env} {fs : FileState} {db' : DB}
    (h : (runW env fs).2 = some db') :
    ∃ t, (runW env fs).1 = .activated t := by
  unfold runW at h ⊢
  split_ifs at h ⊢
  rcases fs with _ | _ | db
  · exact pasoActivate_some_activated h
  · exact Option.noConfusion h
  · exact pasoActivate_some_activated h

/-! ## Bound preservation, stated against an explicit limit -/

theorem run_fsBound_eq {env : Env} {fs : FileState} {k : Int}
    (hmax : env.maxActivations = k) (hk : 1 ≤ k) (hfs : fsBound k fs) :
    fsBound k (run env fs).2 := by
  subst hmax
  exact run_fsBound hk hfs

theorem runW_write_bound_eq {env : Env} {fs : FileState} {k : Int} {db' : DB}
    (hmax : env.maxActivations = k) (hk : 1 ≤ k) (hfs : fsBound k fs)
    (h : (runW env fs).2 = some db') : dbBound k db' := by
  subst hmax
  exact runW_write_bound hk hfs h

/-! ## Claim C2 -/

/-- C2: one run of the activation logic preserves invariant I3 — for every
`maxActivations ≥ 1` and every input database whose entries all hold at most
`maxActivations` activations, the ledger state after the run again has every
entry within the bound (the limit branch rejects without appending, and the
append branch fires only strictly below the limit). -/
theorem single_run_preserves_activation_bound (env : Env) (db : DB)
    (hk : 1 ≤ env.maxActivations) (hdb : dbBound env.maxActivations db) :
    fsBound env.maxActivations (run env (.present db)).2 :=
  run_fsBound hk (fun db0 h0 => by
    obtain rfl := FileState.present.inj h0
    exact hdb)

/-- Witness: the bound-preservation theorem applied to Alice's concrete
request against the empty database under `maxActivations = 1`. -/
theorem single_run_preserves_activation_bound_witness :
    fsBound 1 (run envM1 (.present (freshDb "t0"))).2 :=
  single_run_preserves_activation_bound envM1 (freshDb "t0")
    (by decide) (fun e he => by simp [freshDb] at he)

/-! ## Claim C1 -/

/-- C1 counterexample: two concurrent valid requests for the same license
(`maxActivations = 1`) from different machines, under the overlapped schedule
in which B's ledger load interleaves between A's decide and persist steps:
both runs report `Activated`, an outcome pair that neither serial order
produces.  The read-decide-mutate-write sequences are therefore not executed
as critical sections and the execution is not serializable. -/
theorem overlapped_runs_not_serializable :
    (exec2 envM1 envM2 .absent .overlapAW).1.1.isActivated = true ∧
    (exec2 envM1 envM2 .absent .overlapAW).1.2.isActivated = true ∧
    (exec2 envM1 envM2 .absent .overlapAW).1 ≠
      (exec2 envM1 envM2 .absent .serialAB).1 ∧
    (exec2 envM1 envM2 .absent .overlapAW).1 ≠
      (exec2 envM1 envM2 .absent .serialBA).1 := by
  decide

/-- C1 (amended): the script does not serialize concurrent requests — a
ledger load can interleave between another request's decide and persist, and
the outcomes need not match any serial order — but because every write is a
complete snapshot produced by one bound-preserving run, the final durable
ledger under every schedule of two runs still satisfies the I3 bound
whenever the initial state does and the shared limit is at least 1. -/
theorem exec2_all_schedules_preserve_bound (sch : Schedule)
    (envA envB : Env) (k : Int) (s0 : FileState)
    (hA : envA.maxActivations = k) (hB : envB.maxActivations = k)
    (hk : 1 ≤ k) (hs : fsBound k s0) :
    fsBound k (exec2 envA envB s0 sch).2 := by
  cases sch
  · exact run_fsBound_eq hB hk (run_fsBound_eq hA hk hs)
  · exact run_fsBound_eq hA hk (run_fsBound_eq hB hk hs)
  · exact applyW_bound
      (applyW_bound hs (fun d hd => runW_write_bound_eq hA hk hs hd))
      (fun d hd => runW_write_bound_eq hB hk hs hd)
  · exact applyW_bound
      (applyW_bound hs (fun d hd => runW_write_bound_eq hB hk hs hd))
      (fun d hd => runW_write_bound_eq hA hk hs hd)

/-- Witness: the amended schedule theorem at the concrete overlapped
execution of Alice's two requests from the empty ledger. -/
theorem exec2_all_schedules_preserve_bound_witness :
    fsBound 1 (exec2 envM1 envM2 .absent .overlapAW).2 :=
  exec2_all_schedules_preserve_bound .overlapAW envM1 envM2 1 .absent
    rfl rfl (by decide) (fun db h => nomatch h)

/-! ## Claim C6 -/

/-- C6: the ledger file is written only on the `Activated` path — every run
that ends any other way (`MissingFields`, `ServerMisconfigured`,
`InvalidCredential`, `AlreadyActive`, `LimitReached`, or a crash) leaves the
ledger file exactly as it was. -/
theorem only_activated_path_writes (env : Env) (fs : FileState)
    (h : ∀ t, (run env fs).1 ≠ .activated t) : (run env fs).2 = fs := by
  simp only [run]
  rcases hw : (runW env fs).2 with _ | dbw
  · rfl
  · obtain ⟨t, ht⟩ := runW_some_activated hw
    exact absurd ht (h t)

/-- Witness: a request with missing fields leaves the (absent) ledger
untouched. -/
theorem only_activated_path_writes_witness :
    (run envEmpty .absent).2 = .absent :=
  only_activated_path_writes envEmpty .absent
    (fun t h => by
      rw [show (run envEmpty .absent).1 = .missingFields from by decide] at h
      exact Decision.noConfusion h)

/-! ## The already-active path -/

theorem pasoActivate_alreadyActive {env : Env} {db : DB}
    {entry : LicenseEntry}
    (hfind : findEntry? db.licenses env.email = some entry)
    (hex : ∃ a ∈ entry.activations, a.machineId = env.machineId) :
    pasoActivate env db =
      (.alreadyActive (issueToken env.email env.machineId env.encryptionKey),
       none) := by
  simp only [pasoActivate, hfind]
  rw [if_pos hex]
  rfl

theorem run_alreadyActive {env : Env} {db : DB} {entry : LicenseEntry}
    (hfields : fieldsOk env) (hek : env.encryptionKey ≠ "") (hkey : keyOk env)
    (hfind : findEntry? db.licenses env.email = some entry)
    (hex : ∃ a ∈ entry.activations, a.machineId = env.machineId) :
    run env (.present db) =
      (.alreadyActive (issueToken env.email env.machineId env.encryptionKey),
       .present db) := by
  have hpa := @pasoActivate_alreadyActive env db entry hfind hex
  have hno : ¬(env.masterKey ≠ generate_master_key env.encryptionKey env.email) :=
    fun hc => hc hkey
  simp only [run, runW, if_neg hfields, if_neg hek, if_neg hno, loadDb, hpa]
  rfl

/-! ## Inversion of the activated path -/

theorem pasoActivate_activated_inv {env : Env} {db : DB} {t : String}
    (h : (pasoActivate env db).1 = .activated t) :
    t = issueToken env.email env.machineId env.encryptionKey ∧
    ∃ db2 entry2, (pasoActivate env db).2 = some db2 ∧
      findEntry? db2.licenses env.email = some entry2 ∧
      ∃ a ∈ entry2.activations, a.machineId = env.machineId := by
  rcases hfind : findEntry? db.licenses env.email with _ | f
  · simp only [pasoActivate, hfind] at h ⊢
    split at h
    · exact Decision.noConfusion h
    split at h
    · split at h <;> exact Decision.noConfusion h
    rename_i hex hlim
    rw [if_neg hex, if_neg hlim]
    exact ⟨(Decision.activated.inj h).symm, _, _, rfl,
      findEntry?_updateFirst (findEntry?_append_right hfind rfl) rfl,
      ⟨_, List.mem_append_right _ (List.mem_cons_self _ _), rfl⟩⟩
  · simp only [pasoActivate, hfind] at h ⊢
    split at h
    · exact Decision.noConfusion h
    split at h
    · split at h <;> exact Decision.noConfusion h
    rename_i hex hlim
    rw [if_neg hex, if_neg hlim]
    exact ⟨(Decision.activated.inj h).symm, _, _, rfl,
      findEntry?_updateFirst hfind (findEntry?_eq_some hfind).2,
      ⟨_, List.mem_append_right _ (List.mem_cons_self _ _), rfl⟩⟩

theorem runW_activated_inv {env : Env} {fs : FileState} {t : String}
    (h : (runW env fs).1 = .activated t) :
    fieldsOk env ∧ env.encryptionKey ≠ "" ∧ keyOk env ∧
    t = issueToken env.email env.machineId env.encryptionKey ∧
    ∃ db2 entry2, (runW env fs).2 = some db2 ∧
      findEntry? db2.licenses env.email = some entry2 ∧
      ∃ a ∈ entry2.activations, a.machineId = env.machineId := by
  unfold runW at h ⊢
  split_ifs at h ⊢ with h1 h2 h3
  rcases fs with _ | _ | db
  · obtain ⟨ht, hrest⟩ := pasoActivate_activated_inv h
    exact ⟨h1, h2, not_not.mp h3, ht, hrest⟩
  · exact Decision.noConfusion h
  · obtain ⟨ht, hrest⟩ := pasoActivate_activated_inv h
    exact ⟨h1, h2, not_not.mp h3, ht, hrest⟩

/-! ## The decision on the accepted-key path is never `invalidCredential` -/

theorem pasoActivate_ne_invalid {env : Env} {db : DB} :
    (pasoActivate env db).1 ≠ .invalidCredential := by
  intro h
  rcases hfind : findEntry? db.licenses env.email with _ | f
  all_goals
    simp only [pasoActivate, hfind] at h
    split at h
    · exact Decision.noConfusion h
    split at h
    · split at h <;> exact Decision.noConfusion h
    · exact Decision.noConfusion h

/-! ## Claim C3 -/

/-- C3: activation is idempotent per (email, machineId).  First conjunct:
whenever the matching entry already records the request's machine — with no
assumption on how many activations the entry holds, so also at or above the
limit — the run reports `AlreadyActive` success with the token of the
original activation and leaves the ledger unchanged.  Second conjunct: hence
repeating a request that just reported `Activated` with token `t` yields
`AlreadyActive` with the same token `t` and no further change. -/
theorem activation_idempotent (env : Env) :
    (∀ db entry, fieldsOk env → env.encryptionKey ≠ "" → keyOk env →
      findEntry? db.licenses env.email = some entry →
      (∃ a ∈ entry.activations, a.machineId = env.machineId) →
      run env (.present db) =
        (.alreadyActive (issueToken env.email env.machineId env.encryptionKey),
         .present db)) ∧
    (∀ fs fs2 t, run env fs = (.activated t, fs2) →
      run env fs2 = (.alreadyActive t, fs2)) := by
  constructor
  · intro db entry hfields hek hkey hfind hex
    exact run_alreadyActive hfields hek hkey hfind hex
  · intro fs fs2 t hrun
    have h1 : (runW env fs).1 = .activated t := congrArg Prod.fst hrun
    have h2 : applyW fs (runW env fs).2 = fs2 := congrArg Prod.snd hrun
    obtain ⟨hfields, hek, hkey, ht, db2, entry2, hw, hfind, hex⟩ :=
      runW_activated_inv h1
    rw [hw] at h2
    simp only [applyW] at h2
    subst h2
    rw [run_alreadyActive hfields hek hkey hfind hex, ht]

/-- Witness: Alice's request repeated against the ledger its own first run
produced reports `AlreadyActive` with the same token and changes nothing. -/
theorem activation_idempotent_witness :
    run envM1 (run envM1 .absent).2 =
      (.alreadyActive (issueToken envM1.email envM1.machineId
        envM1.encryptionKey), (run envM1 .absent).2) :=
  (activation_idempotent envM1).2 .absent (run envM1 .absent).2
    (issueToken envM1.email envM1.machineId envM1.encryptionKey)
    (by decide)

/-! ## Claim C4 -/

/-- C4: key derivation and verification match the KeyDeriver contract.
First conjunct: the source's `generate_master_key` equals the spec formula
`derive` — the uppercase first 16 hex characters of
`SHA-256("{email}|lifetime|{sharedSecret}")`.  Second conjunct: for a
request passing the presence validations, the run rejects with
`InvalidCredential` exactly when the candidate key — trimmed, uppercased,
hyphens stripped — differs from `derive` applied to the trimmed, lowercased
email. -/
theorem key_derivation_matches_contract :
    (∀ ek e, generate_master_key ek e = derive e ek) ∧
    (∀ env : Env, ∀ fs : FileState, fieldsOk env → env.encryptionKey ≠ "" →
      ((run env fs).1 = .invalidCredential ↔
        stripDashes (pyUpper (pyStrip env.inputMasterKey)) ≠
          derive (pyLower (pyStrip env.inputEmail)) env.encryptionKey)) := by
  constructor
  · intro ek e
    rfl
  · intro env fs hfields hek
    have hiff : env.masterKey ≠ generate_master_key env.encryptionKey env.email ↔
        stripDashes (pyUpper (pyStrip env.inputMasterKey)) ≠
          derive (pyLower (pyStrip env.inputEmail)) env.encryptionKey := .rfl
    rw [← hiff]
    constructor
    · intro h
      by_contra hkey
      have hkey' : keyOk env := hkey
      have hno : ¬(env.masterKey ≠ generate_master_key env.encryptionKey env.email) :=
        fun hc => hc hkey'
      rw [show (run env fs).1 = (runW env fs).1 from rfl] at h
      unfold runW at h
      rw [if_neg hfields, if_neg hek, if_neg hno] at h
      rcases fs with _ | _ | db
      · exact pasoActivate_ne_invalid h
      · exact Decision.noConfusion h
      · exact pasoActivate_ne_invalid h
    · intro h
      show (runW env fs).1 = _
      unfold runW
      rw [if_neg hfields, if_neg hek, if_pos h]

/-- Witness: a request with a wrong master key is rejected as
`InvalidCredential`. -/
theorem key_derivation_matches_contract_witness :
    (run { envM1 with inputMasterKey := "WRONG" } .absent).1 =
      .invalidCredential :=
  (key_derivation_matches_contract.2 { envM1 with inputMasterKey := "WRONG" }
    .absent (by decide) (by decide)).mpr (by decide)

/-! ## Claim C5 -/

/-- Splitting a character list at a separator absent from both prefixes is
unambiguous. -/
theorem append_sep_inj {l1 l2 r1 r2 : List Char}
    (h1 : '|' ∉ l1) (h2 : '|' ∉ l2)
    (h : l1 ++ '|' :: r1 = l2 ++ '|' :: r2) : l1 = l2 ∧ r1 = r2 := by
  induction l1 generalizing l2 with
  | nil =>
    cases l2 with
    | nil => simpa using h
    | cons c cs =>
      simp only [List.nil_append, List.cons_append, List.cons.injEq] at h
      exact absurd (h.1 ▸ List.mem_cons_self c cs) h2
  | cons c cs ih =>
    cases l2 with
    | nil =>
      simp only [List.cons_append, List.nil_append, List.cons.injEq] at h
      exact absurd (h.1 ▸ List.mem_cons_self c cs) h1
    | cons d ds =>
      simp only [List.cons_append, List.cons.injEq] at h
      obtain ⟨rfl, h'⟩ := h
      obtain ⟨ha, hb⟩ := ih (fun hm => h1 (List.mem_cons_of_mem _ hm))
        (fun hm => h2 (List.mem_cons_of_mem _ hm)) h'
      exact ⟨by rw [ha], hb⟩

/-- The token's hash input determines the (email, machineId) pair as long as
neither identifier contains the `'|'` separator. -/
theorem tokenData_inj {e1 m1 e2 m2 s : String}
    (he1 : '|' ∉ e1.data) (hm1 : '|' ∉ m1.data)
    (he2 : '|' ∉ e2.data) (hm2 : '|' ∉ m2.data)
    (h : tokenData e1 m1 s = tokenData e2 m2 s) : e1 = e2 ∧ m1 = m2 := by
  have hd := congrArg String.data h
  simp only [tokenData, String.data_append, List.append_assoc] at hd
  simp only [List.singleton_append, List.cons_append, List.nil_append] at hd
  obtain ⟨hemail, hrest⟩ := append_sep_inj he1 he2 hd
  obtain ⟨hmach, _⟩ := append_sep_inj hm1 hm2 hrest
  exact ⟨String.ext hemail, String.ext hmach⟩

/-- C5 counterexample: the token does not always differ when the identifiers
change.  The requests (email `"a|b"`, machine `"c"`) and (email `"a"`,
machine `"b|c"`) are distinct pairs, both activate successfully, and both
are issued the very same token, because the `'|'`-separated hash input
`"a|b|c|activated|sec"` is identical. -/
theorem token_collision_counterexample :
    (("a|b", "c") : String × String) ≠ ("a", "b|c") ∧
    (run { inputEmail := "a|b",
           inputMasterKey := generate_master_key "sec" "a|b",
           inputMachineId := "c", inputMachineName := "P1",
           inputRequestId := "r1", encryptionKey := "sec",
           maxActivations := 1, now := "t1" } .absent).1 =
      .activated (issueToken "a|b" "c" "sec") ∧
    (run { inputEmail := "a",
           inputMasterKey := generate_master_key "sec" "a",
           inputMachineId := "b|c", inputMachineName := "P2",
           inputRequestId := "r2", encryptionKey := "sec",
           maxActivations := 1, now := "t2" } .absent).1 =
      .activated (issueToken "a" "b|c" "sec") ∧
    issueToken "a|b" "c" "sec" = issueToken "a" "b|c" "sec" := by
  decide

theorem pasoActivate_alreadyActive_token {env : Env} {db : DB} {t : String}
    (h : (pasoActivate env db).1 = .alreadyActive t) :
    t = issueToken env.email env.machineId env.encryptionKey := by
  rcases hfind : findEntry? db.licenses env.email with _ | f
  all_goals
    simp only [pasoActivate, hfind] at h
    split at h
    · exact (Decision.alreadyActive.inj h).symm
    split at h
    · split at h <;> exact Decision.noConfusion h
    · exact Decision.noConfusion h

theorem runW_alreadyActive_token {env : Env} {fs : FileState} {t : String}
    (h : (runW env fs).1 = .alreadyActive t) :
    t = issueToken env.email env.machineId env.encryptionKey := by
  unfold runW at h
  split_ifs at h
  rcases fs with _ | _ | db
  · exact pasoActivate_alreadyActive_token h
  · exact Decision.noConfusion h
  · exact pasoActivate_alreadyActive_token h

/-- C5 (amended): the token issued on both the `AlreadyActive` and
`Activated` paths equals the full hex digest of
`SHA-256("{email}|{machineId}|activated|{sharedSecret}")`, so for a fixed
shared secret it is identical across repeated calls with the same
(email, machineId); and when neither identifier contains `'|'`, distinct
(email, machineId) pairs give distinct hash inputs (identifiers containing
`'|'` can collide, as the counterexample shows). -/
theorem token_formula_deterministic_and_injective :
    (∀ env : Env, ∀ fs : FileState, ∀ t : String,
      ((run env fs).1 = .alreadyActive t ∨ (run env fs).1 = .activated t) →
      t = issueToken env.email env.machineId env.encryptionKey) ∧
    (∀ e1 m1 e2 m2 s : String, '|' ∉ e1.data → '|' ∉ m1.data →
      '|' ∉ e2.data → '|' ∉ m2.data →
      tokenData e1 m1 s = tokenData e2 m2 s → e1 = e2 ∧ m1 = m2) := by
  constructor
  · intro env fs t h
    rcases h with h | h
    · exact runW_alreadyActive_token h
    · exact (runW_activated_inv h).2.2.2.1
  · intro e1 m1 e2 m2 s he1 hm1 he2 hm2 h
    exact tokenData_inj he1 hm1 he2 hm2 h

/-- Witness: the token theorem applied at Alice's concrete activation, and
the injectivity conjunct at concrete `'|'`-free identifiers. -/
theorem token_formula_deterministic_and_injective_witness :
    issueToken envM1.email envM1.machineId envM1.encryptionKey =
      issueToken envM1.email envM1.machineId envM1.encryptionKey ∧
    (("alice@x.com" : String) = "alice@x.com" ∧ ("m1" : String) = "m1") :=
  ⟨token_formula_deterministic_and_injective.1 envM1 .absent _
      (.inr (by decide)),
   token_formula_deterministic_and_injective.2 "alice@x.com" "m1"
      "alice@x.com" "m1" "sec" (by decide) (by decide) (by decide)
      (by decide) (by decide)⟩

/-! ## Claim C7 -/

/-- C7: for a request whose machine is not yet recorded on the matching
entry while that entry is at or above the limit (in the spec's
positive-limit regime `maxActivations ≥ 1` the first recorded activation
then exists), the run fails with `LimitReached` and its message names the
machine name of the first — earliest, hence deterministic — recorded
activation, and the ledger file is not mutated. -/
theorem limit_reached_names_first_machine (env : Env) (db : DB)
    (entry : LicenseEntry) (a : Activation) (rest : List Activation)
    (nm : String)
    (hfields : fieldsOk env) (hek : env.encryptionKey ≠ "") (hkey : keyOk env)
    (hfind : findEntry? db.licenses env.email = some entry)
    (hacts : entry.activations = a :: rest)
    (hnm : a.machineName = some nm)
    (hnomem : ¬∃ x ∈ entry.activations, x.machineId = env.machineId)
    (hlim : (entry.activations.length : Int) ≥ env.maxActivations) :
    run env (.present db) =
      (.limitReached nm env.maxActivations, .present db) ∧
    writtenResult (run env (.present db)).1 =
      some (false, limitMessage nm env.maxActivations, "") := by
  have hno : ¬(env.masterKey ≠ generate_master_key env.encryptionKey env.email) :=
    fun hc => hc hkey
  have hpa : pasoActivate env db =
      (.limitReached nm env.maxActivations, none) := by
    simp only [pasoActivate, hfind]
    rw [if_neg hnomem, if_pos hlim, hacts]
    simp [hnm]
  have hrun : run env (.present db) =
      (.limitReached nm env.maxActivations, .present db) := by
    simp only [run, runW, if_neg hfields, if_neg hek, if_neg hno, loadDb, hpa]
    rfl
  exact ⟨hrun, by rw [hrun]; rfl⟩

/-- Witness: Alice's request from machine `m2` against the full single-slot
ledger is rejected naming `PC-1`, with the ledger untouched. -/
theorem limit_reached_names_first_machine_witness :
    run envM2 (.present dbOneAct) =
      (.limitReached "PC-1" envM2.maxActivations, .present dbOneAct) ∧
    writtenResult (run envM2 (.present dbOneAct)).1 =
      some (false, limitMessage "PC-1" envM2.maxActivations, "") :=
  limit_reached_names_first_machine envM2 dbOneAct
    { email := "alice@x.com", masterKey := "ANY", createdAt := "t0",
      isActive := true, activations := [actM1] }
    actM1 [] "PC-1" (by decide) (by decide) (by decide) (by decide)
    (by decide) (by decide) (by decide) (by decide)

/-! ## Claim C9 -/

/-- C9: a run that reaches the load step with an unparseable ledger file
crashes — the parse failure is surfaced to the invoking process and no
result file is written — and the existing file is never replaced; the fresh
empty database (version `"1.0"`, no licenses) is synthesized only when the
ledger file is absent, while a present parseable file loads as-is and a
corrupt one is a load error. -/
theorem corrupt_ledger_surfaced_not_replaced :
    (∀ env : Env, fieldsOk env → env.encryptionKey ≠ "" → keyOk env →
      run env .corrupt = (.crashCorruptLedger, .corrupt) ∧
      writtenResult (run env .corrupt).1 = none) ∧
    (∀ now, loadDb .absent now = .ok (freshDb now)) ∧
    (∀ db now, loadDb (.present db) now = .ok db) ∧
    (∀ now, loadDb .corrupt now = .error ()) := by
  refine ⟨?_, fun now => rfl, fun db now => rfl, fun now => rfl⟩
  intro env hfields hek hkey
  have hno : ¬(env.masterKey ≠ generate_master_key env.encryptionKey env.email) :=
    fun hc => hc hkey
  have hw : runW env .corrupt = (.crashCorruptLedger, none) := by
    unfold runW
    rw [if_neg hfields, if_neg hek, if_neg hno]
    rfl
  have hr : run env .corrupt = (.crashCorruptLedger, .corrupt) := by
    simp only [run, hw]
    rfl
  exact ⟨hr, by rw [hr]; rfl⟩

/-- Witness: Alice's valid request against a corrupt ledger crashes and the
file survives untouched. -/
theorem corrupt_ledger_surfaced_not_replaced_witness :
    run envM1 .corrupt = (.crashCorruptLedger, .corrupt) ∧
    writtenResult (run envM1 .corrupt).1 = none :=
  corrupt_ledger_surfaced_not_replaced.1 envM1 (by decide) (by decide)
    (by decide)

/-! ## Claim C10 -/

theorem pasoActivate_crash_le_zero {env : Env} {db : DB}
    (h : (pasoActivate env db).1 = .crashIndexError) :
    env.maxActivations ≤ 0 := by
  rcases hfind : findEntry? db.licenses env.email with _ | f
  all_goals
    simp only [pasoActivate, hfind] at h
    split at h
    · exact Decision.noConfusion h
    split at h
    · rename_i hlim
      split at h
      · rename_i hnil
        rw [hnil] at hlim
        simpa using hlim
      · exact Decision.noConfusion h
    · exact Decision.noConfusion h

theorem runW_crash_le_zero {env : Env} {fs : FileState}
    (h : (runW env fs).1 = .crashIndexError) :
    env.maxActivations ≤ 0 := by
  unfold runW at h
  split_ifs at h
  rcases fs with _ | _ | db
  · exact pasoActivate_crash_le_zero h
  · exact Decision.noConfusion h
  · exact pasoActivate_crash_le_zero h

/-- C10: with `maxActivations ≥ 1` the `activations[0]` read of the limit
branch is always in bounds — no run ends in `IndexError`; and the
precondition is necessary, since with `maxActivations = 0` a valid request
for a previously unseen email reaches that read on an empty activation list
and crashes. -/
theorem limit_branch_first_read_safe :
    (∀ env : Env, ∀ fs : FileState, 1 ≤ env.maxActivations →
      (run env fs).1 ≠ .crashIndexError) ∧
    (run { envM1 with maxActivations := 0 } .absent).1 =
      .crashIndexError := by
  constructor
  · intro env fs hk h
    have := runW_crash_le_zero h
    omega
  · decide

/-- Witness: the in-bounds conjunct applied at Alice's concrete request with
`maxActivations = 1`. -/
theorem limit_branch_first_read_safe_witness :
    (1 : Int) ≤ envM1.maxActivations ∧
    (run envM1 .absent).1 ≠ .crashIndexError :=
  ⟨by decide, limit_branch_first_read_safe.1 envM1 .absent (by decide)⟩

/-! ## Claim C8 -/

/-- C8 counterexample: the persist step does not write a temporary file and
atomically rename — it truncates `licenses.json` in place.  During Alice's
successful activation against Bob's existing ledger, the observable durable
trace contains the truncated (unparseable) state, which is neither the
complete previous ledger nor the complete new one, refuting that an external
reader always observes one of the two complete ledgers. -/
theorem in_place_persist_observable_counterexample :
    FileState.corrupt ∈ runDurableTrace envM1 (.present dbBob) ∧
    FileState.corrupt ≠ .present dbBob ∧
    FileState.corrupt ≠ (run envM1 (.present dbBob)).2 ∧
    loadDb .corrupt "t9" = .error () := by
  refine ⟨by decide, by decide, by decide, rfl⟩

/-- C8 (amended): the persist step rewrites the ledger in place — mode
`"w"` truncates before writing — so whenever a run writes, its observable
durable trace is exactly initial state, truncated unparseable state, new
state; a run that does not write leaves only the initial state. -/
theorem persist_trace_in_place (env : Env) (fs : FileState) :
    ((runW env fs).2 = none → runDurableTrace env fs = [fs]) ∧
    (∀ db', (runW env fs).2 = some db' →
      runDurableTrace env fs = [fs, .corrupt, .present db'] ∧
      (∀ now, loadDb .corrupt now = .error ())) := by
  constructor
  · intro h
    simp [runDurableTrace, h]
  · intro db' h
    refine ⟨?_, fun now => rfl⟩
    simp [runDurableTrace, h, persistDurableStates]

/-- Witness: the in-place trace theorem at Alice's concrete activation. -/
theorem persist_trace_in_place_witness :
    runDurableTrace envM1 .absent =
      [.absent, .corrupt, .present dbAliceNew] :=
  ((persist_trace_in_place envM1 .absent).2 dbAliceNew (by decide)).1

end LicenseDb
